import Mathlib

/-!
# Verification of the telegram-muter schedule engine

Shallow embedding of `telegram_muter.py`: calendar primitives, the
`Schedule` entity, the inheritance resolver (`ScheduleManager`), the
group matcher and the next-working-day algorithm, together with proofs
of the behavioural properties claimed for them.

Conventions of the embedding:
* a calendar date is an `Int`, the number of days since 1970-01-01
  (`daysFromCivil` converts a proleptic-Gregorian `(y, m, d)` triple);
* a time of day is a `Nat`, the number of seconds since midnight
  (pendulum `Time` values compare exactly like their second counts);
* a weekday is an `Int` in `0..6` with Monday = 0, as in Python's
  `date.weekday()` and pendulum's `WeekDay` enum values;
* Python loops are modelled with an explicit fuel argument, `none`
  standing for a run that did not terminate within the fuel (or hit an
  exception such as a `KeyError`); theorems quantify over sufficient fuel.
-/

namespace TelegramMuter

/-- Days since 1970-01-01 of the civil date `(y, m, d)` (Howard Hinnant's
`days_from_civil` algorithm, proleptic Gregorian calendar), used to name
concrete dates in witnesses. -/
def daysFromCivil (y m d : Int) : Int :=
  let y' := y - (if m ≤ 2 then 1 else 0)
  let era := (if 0 ≤ y' then y' else y' - 399) / 400
  let yoe := y' - era * 400
  let doy := (153 * (m + (if 2 < m then -3 else 9)) + 2) / 5 + d - 1
  let doe := yoe * 365 + yoe / 4 - yoe / 100 + doy
  era * 146097 + doe - 719468

/-- `date.weekday()` of a day count: Monday = 0 … Sunday = 6
(1970-01-01 was a Thursday, weekday 3). -/
def pyWeekday (d : Int) : Int :=
  (d + 3) % 7

/-- One item of a `working_weekends` / `nonworking_weekdays` list after
parsing (`Schedule._parse_date_list`): either a single date or a closed
interval. -/
inductive DateSelector : Type
  | single (d : Int)
  | interval (lo hi : Int)
deriving DecidableEq, Repr

/-- Whether a date falls under a selector: equality for a single date,
inclusive containment for an interval (the per-item test inside
`Schedule._is_working_date` / `Schedule._is_nonworking_date`). -/
def DateSelector.containsDate : DateSelector → Int → Bool
  | .single x, d => d == x
  | .interval lo hi, d => decide (lo ≤ d) && decide (d ≤ hi)

/-- A schedule whose every attribute is resolved, as produced by
`ScheduleManager.get_effective_schedule` and consumed by
`Schedule.get_next_working_day`.  `start_of_day` is in seconds since
midnight; `weekends` holds pendulum `WeekDay` values `0..6`. -/
structure EffectiveSchedule : Type where
  name : String
  start_of_day : Nat
  timezone : String
  weekends : List Int
  working_weekends : List DateSelector
  nonworking_weekdays : List DateSelector
deriving DecidableEq, Repr

/-- `Schedule._is_working_date`: the date matches some
`working_weekends` selector. -/
def isWorkingDate (s : EffectiveSchedule) (d : Int) : Bool :=
  s.working_weekends.any (·.containsDate d)

/-- `Schedule._is_nonworking_date`: the date matches some
`nonworking_weekdays` selector. -/
def isNonworkingDate (s : EffectiveSchedule) (d : Int) : Bool :=
  s.nonworking_weekdays.any (·.containsDate d)

/-- The weekend test of the loop in `Schedule.get_next_working_day`:
`weekday in [wd.value for wd in self.weekends]`. -/
def isWeekend (s : EffectiveSchedule) (d : Int) : Bool :=
  s.weekends.contains (pyWeekday d)

/-- The `while True` loop of `Schedule.get_next_working_day`, with fuel:
reject a nonworking date; accept a non-weekend date; accept a weekend
date only when it is a working weekend. -/
def nextWorkingFrom (s : EffectiveSchedule) (d : Int) : Nat → Option Int
  | 0 => none
  | fuel + 1 =>
    if isNonworkingDate s d then nextWorkingFrom s (d + 1) fuel
    else if isWeekend s d then
      if isWorkingDate s d then some d
      else nextWorkingFrom s (d + 1) fuel
    else some d

/-- The initial candidate of `Schedule.get_next_working_day`: today when
`now.time() < self.start_of_day`, tomorrow otherwise. -/
def startingDay (s : EffectiveSchedule) (nowDate : Int) (nowTime : Nat) : Int :=
  if nowTime < s.start_of_day then nowDate else nowDate + 1

/-- `Schedule.get_next_working_day`, as a function of the current date
and time-of-day in the target zone. -/
def getNextWorkingDay (s : EffectiveSchedule) (nowDate : Int) (nowTime : Nat)
    (fuel : Nat) : Option Int :=
  nextWorkingFrom s (startingDay s nowDate nowTime) fuel

/-- A date is acceptable to the loop iff it is not nonworking and is
either no weekend or a working weekend. -/
def acceptableDay (s : EffectiveSchedule) (d : Int) : Bool :=
  !isNonworkingDate s d && (!isWeekend s d || isWorkingDate s d)

/-- A declared schedule (`Schedule` pydantic model) after field parsing:
`start_of_day` in seconds since midnight (`none` = unset), `timezone`
with `""` = unset, weekday values in `weekends`, parsed date selectors
in the two exception lists. -/
structure Schedule : Type where
  name : String
  parent : String := ""
  start_of_day : Option Nat := none
  timezone : String := ""
  weekends : List Int := []
  working_weekends : List DateSelector := []
  nonworking_weekdays : List DateSelector := []
deriving DecidableEq, Repr

/-- The dict `{s.name: s for s in schedules}` of `ScheduleManager.__init__`:
on duplicate names the last occurrence wins, as in a Python dict
comprehension. -/
def lookupSchedule (l : List Schedule) (n : String) : Option Schedule :=
  l.reverse.find? (fun s => s.name == n)

/-- `ScheduleManager._resolve_schedule_property`, generic over the
accessed attribute: walk the parent chain from `current` and return the
first value that `isSet`, or `dflt` once the chain ends; `none` models
a `KeyError` (dangling parent) or fuel exhaustion. -/
def resolveProp {α : Type} (l : List Schedule) (get : Schedule → α)
    (isSet : α → Bool) (dflt : α) : String → Nat → Option α
  | _, 0 => none
  | current, fuel + 1 =>
    if current = "" then some dflt
    else
      match lookupSchedule l current with
      | none => none
      | some s =>
        if isSet (get s) then some (get s)
        else resolveProp l get isSet dflt s.parent fuel

/-- Resolution of `start_of_day`: set means not `None` (a parsed `Time`
is never equal to `""`); no default at this stage (`None` is mapped to
09:00:00 later, in `get_effective_schedule`). -/
def resolveStartOfDay (l : List Schedule) (n : String) (fuel : Nat) :
    Option (Option Nat) :=
  resolveProp l (·.start_of_day) (·.isSome) none n fuel

/-- Resolution of `timezone`: set means non-empty; default `"auto"`. -/
def resolveTimezone (l : List Schedule) (n : String) (fuel : Nat) :
    Option String :=
  resolveProp l (·.timezone) (· != "") "auto" n fuel

/-- Resolution of a list-valued attribute: set means non-empty; default
the empty list. -/
def resolveListProp {α : Type} (l : List Schedule) (get : Schedule → List α)
    (n : String) (fuel : Nat) : Option (List α) :=
  resolveProp l get (fun v => !v.isEmpty) [] n fuel

/-- The parent chain of a schedule name, self first, as the list of
schedule nodes visited by the resolver's walk. -/
def chainList (l : List Schedule) : String → Nat → Option (List Schedule)
  | _, 0 => none
  | current, fuel + 1 =>
    if current = "" then some []
    else
      match lookupSchedule l current with
      | none => none
      | some s => (chainList l s.parent fuel).map (s :: ·)

/-- The fallback of `get_effective_schedule`: a name that is not a
declared schedule is replaced by `"default"`. -/
def effectiveName (l : List Schedule) (n : String) : String :=
  if (lookupSchedule l n).isSome then n else "default"

/-- `ScheduleManager.get_effective_schedule`: resolve the five
attributes independently and assemble the effective schedule.  The
Python round-trips the resolved values through strings and re-parses
them with pydantic; that round trip is the identity on the parsed
values and is elided here.  `start_of_day` falls back to 09:00:00
(32400 s) and `timezone` to `"auto"` when unresolved. -/
def getEffectiveSchedule (l : List Schedule) (name0 : String) (fuel : Nat) :
    Option EffectiveSchedule :=
  let name := effectiveName l name0
  match resolveStartOfDay l name fuel, resolveTimezone l name fuel,
      resolveListProp l (·.weekends) name fuel,
      resolveListProp l (·.working_weekends) name fuel,
      resolveListProp l (·.nonworking_weekdays) name fuel with
  | some sod, some tz, some wk, some ww, some nw =>
    some { name := "_effective_" ++ name,
           start_of_day := sod.getD 32400,
           timezone := if tz = "" then "auto" else tz,
           weekends := wk,
           working_weekends := ww,
           nonworking_weekdays := nw }
  | _, _, _, _, _ => none

/-- A `GroupSetting` binding: an exact `name` or a `name_pattern`
(empty string = not given) and the bound schedule name. -/
structure GroupSetting : Type where
  name : String := ""
  name_pattern : String := ""
  schedule : String
deriving DecidableEq, Repr

/-- Python `re.match(pattern, s)` restricted to patterns free of regex
metacharacters: such a pattern matches iff it occurs at the start of
`s` (`re.match` anchors at the beginning and does not require a
full-string match). -/
def reMatch (pattern s : String) : Bool :=
  pattern.toList.isPrefixOf s.toList

/-- Modelled from the spec: the "search" matching semantics §4.2
ascribes to the second pass ("a match anywhere satisfying a search") —
for a metacharacter-free pattern, matching anywhere means occurring as
a contiguous substring. -/
def reSearch (pattern s : String) : Bool :=
  decide (pattern.toList <:+: s.toList)

/-- `ScheduleManager.get_schedule_for_group`: first pass exact names in
declaration order, second pass patterns in declaration order, then the
`"default"` schedule. -/
def getScheduleForGroup (l : List Schedule) (gs : List GroupSetting)
    (group_name : String) (fuel : Nat) : Option EffectiveSchedule :=
  match gs.find? (fun g => g.name != "" && g.name == group_name) with
  | some g => getEffectiveSchedule l g.schedule fuel
  | none =>
    match gs.find? (fun g => g.name_pattern != "" && reMatch g.name_pattern group_name) with
    | some g => getEffectiveSchedule l g.schedule fuel
    | none => getEffectiveSchedule l "default" fuel

/-- The configuration errors `ScheduleManager.__init__` can raise. -/
inductive ConfigError : Type
  | missingDefault
  | unknownParent (schedule parent : String)
  | circular (schedule : String)
deriving DecidableEq, Repr

instance : DecidableEq (Except ConfigError Unit) := fun a b =>
  match a, b with
  | .ok x, .ok y => .isTrue (by cases x; cases y; rfl)
  | .error x, .error y =>
    if h : x = y then .isTrue (by rw [h]) else .isFalse (by simp [h])
  | .ok _, .error _ => .isFalse (by simp)
  | .error _, .ok _ => .isFalse (by simp)

/-- Deduplication keeping first occurrences, with the names already
seen as accumulator. -/
def firstDedupAux (seen : List String) : List String → List String
  | [] => []
  | a :: rest =>
    if seen.contains a then firstDedupAux seen rest
    else a :: firstDedupAux (a :: seen) rest

/-- Deduplication keeping first occurrences: the key iteration order of
a Python dict built by insertion. -/
def firstDedup (xs : List String) : List String :=
  firstDedupAux [] xs

/-- The keys of `self.schedules`, in dict iteration order. -/
def dictKeys (l : List Schedule) : List String :=
  firstDedup (l.map (·.name))

/-- One parent-graph step: from a non-empty name to its schedule's
parent (`none` when the name is empty or undeclared). -/
def parentStep (l : List Schedule) (n : String) : Option String :=
  if n = "" then none else (lookupSchedule l n).map (·.parent)

/-- `k` parent-graph steps from `n`. -/
def parentIter (l : List Schedule) (n : String) : Nat → Option String
  | 0 => some n
  | k + 1 => (parentIter l n k).bind (parentStep l)

/-- A name lies on a parent cycle: some positive number of parent steps
returns to it. -/
def inParentCycle (l : List Schedule) (n : String) : Prop :=
  ∃ k, 1 ≤ k ∧ parentIter l n k = some n

/-- The walk of `_validate_no_circular_dependencies` from one starting
name: `some true` when a visited name recurs, `some false` when the
chain terminates, `none` for a `KeyError` or fuel exhaustion. -/
def detectFrom (l : List Schedule) : List String → String → Nat → Option Bool
  | _, _, 0 => none
  | visited, current, fuel + 1 =>
    if current = "" then some false
    else if visited.contains current then some true
    else
      match lookupSchedule l current with
      | none => none
      | some s => detectFrom l (current :: visited) s.parent fuel

/-- Fuel that always suffices for one walk: one more than the number of
distinct schedule names. -/
def cycleFuel (l : List Schedule) : Nat :=
  (dictKeys l).length + 1

/-- The loop of `_validate_no_circular_dependencies` over the remaining
dict keys: `some (some n)` = circular-dependency error raised at `n`,
`some none` = no error, `none` = model breakdown. -/
def checkCyclesGo (l : List Schedule) : List String → Option (Option String)
  | [] => some none
  | n :: rest =>
    match detectFrom l [] n (cycleFuel l) with
    | none => none
    | some true => some (some n)
    | some false => checkCyclesGo l rest

/-- `ScheduleManager._validate_no_circular_dependencies`. -/
def checkCycles (l : List Schedule) : Option (Option String) :=
  checkCyclesGo l (dictKeys l)

/-- The validation sequence of `ScheduleManager.__init__`: first the
presence of `"default"`, then dangling parent references in declaration
order, then the cycle check. -/
def validateSchedules (l : List Schedule) : Option (Except ConfigError Unit) :=
  if !(l.any (·.name == "default")) then some (.error .missingDefault)
  else
    match l.find? (fun s => s.parent != "" && !(lookupSchedule l s.parent).isSome) with
    | some s => some (.error (.unknownParent s.name s.parent))
    | none =>
      match checkCycles l with
      | none => none
      | some (some m) => some (.error (.circular m))
      | some none => some (.ok ())

/-- Every non-empty parent reference names a declared schedule. -/
def validParents (l : List Schedule) : Prop :=
  ∀ s ∈ l, s.parent = "" ∨ (lookupSchedule l s.parent).isSome

instance (l : List Schedule) : Decidable (validParents l) :=
  inferInstanceAs
    (Decidable (∀ s ∈ l, s.parent = "" ∨ (lookupSchedule l s.parent).isSome))

/-! Concrete configurations used in counterexamples and witnesses. -/

/-- A configuration whose parent graph has the cycle `b → c → b`, with
`a` hanging off the cycle (`a → b`) and declared before `b` and `c`. -/
def cycleConfig : List Schedule :=
  [{ name := "default" }, { name := "a", parent := "b" },
   { name := "b", parent := "c" }, { name := "c", parent := "b" }]

/-- A configuration with no `"default"` schedule and a dangling parent
reference. -/
def noDefaultConfig : List Schedule :=
  [{ name := "a", parent := "missing" }]

/-- Three flat schedules with distinguishable timezones. -/
def threeZoneConfig : List Schedule :=
  [{ name := "default", start_of_day := some 28800, timezone := "UTC" },
   { name := "s1", timezone := "Europe/Moscow" },
   { name := "s2", timezone := "Asia/Tokyo" }]

/-- The inheritance chain `C → B → A` of the spec's attribute
independence scenario: `A` sets only `timezone`, `B` only
`start_of_day`, `C` nothing. -/
def chainConfig : List Schedule :=
  [{ name := "default" }, { name := "A", timezone := "Zulu" },
   { name := "B", parent := "A", start_of_day := some 3600 },
   { name := "C", parent := "B" }]

/-- A parent with non-empty list attributes and a child leaving all of
its lists empty. -/
def inheritConfig : List Schedule :=
  [{ name := "default", weekends := [5, 6],
     working_weekends := [.single 100],
     nonworking_weekdays := [.interval 10 20] },
   { name := "child", parent := "default" }]

/-- A two-node chain in which no schedule sets any attribute. -/
def plainConfig : List Schedule :=
  [{ name := "default" }, { name := "leaf", parent := "default" }]

/-- The group bindings of the anchored-match counterexample: a single
pattern binding `"bar" → s1`. -/
def barPatternBindings : List GroupSetting :=
  [{ name_pattern := "bar", schedule := "s1" }]

/-- The effective schedule of the spec's priority scenario: Saturday
and Sunday weekends, 2025-09-06 listed both as a working weekend and as
a nonworking weekday. -/
def priorityEff : EffectiveSchedule :=
  { name := "_effective_default", start_of_day := 32400, timezone := "UTC",
    weekends := [5, 6],
    working_weekends := [.single (daysFromCivil 2025 9 6)],
    nonworking_weekdays := [.single (daysFromCivil 2025 9 6)] }

/-- An effective schedule with plain Saturday/Sunday weekends and no
exceptions. -/
def weekendEff : EffectiveSchedule :=
  { name := "_effective_default", start_of_day := 32400, timezone := "UTC",
    weekends := [5, 6], working_weekends := [], nonworking_weekdays := [] }

/-! General lemmas about the embedded operations. -/

theorem nextWorkingFrom_succ (s : EffectiveSchedule) (d : Int) (fuel : Nat) :
    nextWorkingFrom s d (fuel + 1) =
      if acceptableDay s d then some d else nextWorkingFrom s (d + 1) fuel := by
  simp only [nextWorkingFrom, acceptableDay]
  by_cases hn : isNonworkingDate s d <;> by_cases hw : isWeekend s d <;>
    by_cases hg : isWorkingDate s d <;> simp [hn, hw, hg]

theorem nextWorkingFrom_acceptable (s : EffectiveSchedule) :
    ∀ (fuel : Nat) (d r : Int), nextWorkingFrom s d fuel = some r →
      acceptableDay s r = true := by
  intro fuel
  induction fuel with
  | zero => intro d r h; simp [nextWorkingFrom] at h
  | succ n ih =>
    intro d r h
    rw [nextWorkingFrom_succ] at h
    by_cases ha : acceptableDay s d
    · simp [ha] at h; simpa [← h] using ha
    · simp [ha] at h; exact ih _ _ h

theorem nextWorkingFrom_least (s : EffectiveSchedule) :
    ∀ (fuel : Nat) (d : Int),
      (∃ k : Nat, k < fuel ∧ acceptableDay s (d + k) = true) →
      ∃ r, nextWorkingFrom s d fuel = some r ∧ acceptableDay s r = true ∧
        d ≤ r ∧ ∀ x : Int, d ≤ x → x < r → acceptableDay s x = false := by
  intro fuel
  induction fuel with
  | zero => rintro d ⟨k, hk, -⟩; omega
  | succ n ih =>
    rintro d ⟨k, hk, hacc⟩
    rw [nextWorkingFrom_succ]
    by_cases ha : acceptableDay s d
    · exact ⟨d, by simp [ha], ha, le_refl d, fun x hx1 hx2 => absurd hx1 (by omega)⟩
    · match k with
      | 0 => simp at hacc; exact absurd hacc ha
      | k' + 1 =>
        have hacc' : acceptableDay s ((d + 1) + k') = true := by
          have : (d + 1) + (k' : Int) = d + ((k' : Int) + 1) := by ring
          rw [this]; exact_mod_cast hacc
        obtain ⟨r, hrun, hr, hle, hmin⟩ := ih (d + 1) ⟨k', by omega, hacc'⟩
        refine ⟨r, by simp [ha, hrun], hr, by omega, fun x hx1 hx2 => ?_⟩
        by_cases hxd : x = d
        · subst hxd; exact Bool.not_eq_true _ ▸ (by simpa using ha)
        · exact hmin x (by omega) hx2

theorem lookupSchedule_isSome_iff (l : List Schedule) (n : String) :
    (lookupSchedule l n).isSome ↔ n ∈ l.map (·.name) := by
  simp only [lookupSchedule, List.find?_isSome, List.mem_reverse, List.mem_map,
    beq_iff_eq]

theorem lookupSchedule_mem (l : List Schedule) (n : String) (s : Schedule)
    (h : lookupSchedule l n = some s) : s ∈ l ∧ s.name = n := by
  refine ⟨?_, ?_⟩
  · have := List.mem_of_find?_eq_some h
    simpa [List.mem_reverse] using this
  · have := List.find?_some h
    simpa [beq_iff_eq] using this

theorem firstDedupAux_mem (a : String) : ∀ (xs seen : List String),
    a ∈ firstDedupAux seen xs ↔ a ∈ xs ∧ a ∉ seen := by
  intro xs
  induction xs with
  | nil => intro seen; simp [firstDedupAux]
  | cons b rest ih =>
    intro seen
    rw [firstDedupAux]
    by_cases hb : b ∈ seen
    · rw [if_pos (by simpa using hb), ih, List.mem_cons]
      constructor
      · rintro ⟨h1, h2⟩; exact ⟨Or.inr h1, h2⟩
      · rintro ⟨h1 | h1, h2⟩
        · exact absurd (h1 ▸ hb) h2
        · exact ⟨h1, h2⟩
    · rw [if_neg (by simpa using hb), List.mem_cons, ih, List.mem_cons,
        List.mem_cons]
      by_cases hab : a = b
      · subst hab; simp [hb]
      · simp only [hab, false_or]

theorem firstDedupAux_nodup : ∀ (xs seen : List String),
    (firstDedupAux seen xs).Nodup := by
  intro xs
  induction xs with
  | nil => intro seen; simp [firstDedupAux]
  | cons b rest ih =>
    intro seen
    rw [firstDedupAux]
    by_cases hb : b ∈ seen
    · rw [if_pos (by simpa using hb)]; exact ih seen
    · rw [if_neg (by simpa using hb)]
      refine List.nodup_cons.mpr ⟨?_, ih (b :: seen)⟩
      intro hmem
      exact ((firstDedupAux_mem b rest (b :: seen)).mp hmem).2
        (List.mem_cons_self b seen)

theorem firstDedup_mem (a : String) (xs : List String) :
    a ∈ firstDedup xs ↔ a ∈ xs := by
  rw [firstDedup, firstDedupAux_mem]
  simp

theorem firstDedup_nodup (xs : List String) : (firstDedup xs).Nodup :=
  firstDedupAux_nodup xs []

theorem mem_dictKeys_iff (l : List Schedule) (n : String) :
    n ∈ dictKeys l ↔ (lookupSchedule l n).isSome := by
  rw [dictKeys, firstDedup_mem, lookupSchedule_isSome_iff]

theorem dictKeys_nodup (l : List Schedule) : (dictKeys l).Nodup :=
  firstDedup_nodup _

theorem find?_append_of_first {α : Type} (p : α → Bool) :
    ∀ (g1 : List α) (g2 : List α) (g : α), p g = true →
      (∀ x ∈ g1, p x = false) → (g1 ++ g :: g2).find? p = some g := by
  intro g1
  induction g1 with
  | nil => intro g2 g hg _; simp [List.find?, hg]
  | cons a rest ih =>
    intro g2 g hg hfirst
    have ha : p a = false := hfirst a (List.mem_cons_self a rest)
    simp only [List.cons_append, List.find?, ha]
    exact ih g2 g hg (fun x hx => hfirst x (List.mem_cons_of_mem a hx))

theorem resolveProp_of_chainList {α : Type} (l : List Schedule)
    (get : Schedule → α) (isSet : α → Bool) (dflt : α) :
    ∀ (fuel : Nat) (n : String) (c : List Schedule),
      chainList l n fuel = some c →
      resolveProp l get isSet dflt n fuel =
        some (((c.find? fun s => isSet (get s)).map get).getD dflt) := by
  intro fuel
  induction fuel with
  | zero => intro n c h; simp [chainList] at h
  | succ m ih =>
    intro n c h
    by_cases hn : n = ""
    · subst hn
      have he : chainList l "" (m + 1) = some [] := by simp [chainList]
      rw [he] at h
      injection h with h
      subst h
      simp [resolveProp, List.find?]
    · simp only [chainList, if_neg hn] at h
      match hl : lookupSchedule l n with
      | none => rw [hl] at h; simp at h
      | some s =>
        rw [hl] at h
        simp only [Option.map_eq_some'] at h
        obtain ⟨c', hc', rfl⟩ := h
        simp only [resolveProp, if_neg hn, hl]
        by_cases hset : isSet (get s)
        · simp [hset, List.find?]
        · rw [if_neg hset, ih s.parent c' hc']
          simp [List.find?, hset]

theorem parentIter_add (l : List Schedule) (n : String) :
    ∀ (j k : Nat), parentIter l n (j + k) =
      (parentIter l n j).bind (fun m => parentIter l m k) := by
  intro j k
  induction k with
  | zero => cases h : parentIter l n j <;> simp [parentIter, h]
  | succ k ih =>
    show parentIter l n ((j + k) + 1) = _
    rw [parentIter, ih]
    cases h : parentIter l n j <;> simp [parentIter]

theorem parentIter_cycle_mul (l : List Schedule) (n : String) (k : Nat)
    (hc : parentIter l n k = some n) :
    ∀ (a : Nat), parentIter l n (a * k) = some n := by
  intro a
  induction a with
  | zero => rw [Nat.zero_mul]; rfl
  | succ a ih =>
    rw [Nat.succ_mul, parentIter_add, ih]
    simpa using hc

theorem parentIter_defined (l : List Schedule) (n : String) (k : Nat)
    (hk : 1 ≤ k) (hc : parentIter l n k = some n) :
    ∀ (j : Nat), (parentIter l n j).isSome := by
  intro j
  have hjk : j ≤ j * k := Nat.le_mul_of_pos_right j hk
  have hm : parentIter l n (j * k) = some n := parentIter_cycle_mul l n k hc j
  have hsplit : j + (j * k - j) = j * k := by omega
  rw [← hsplit, parentIter_add] at hm
  cases h : parentIter l n j with
  | none => rw [h] at hm; simp at hm
  | some m => simp

theorem parentIter_one (l : List Schedule) (n : String) :
    parentIter l n 1 = parentStep l n := by
  simp [parentIter]

theorem detectFrom_true (l : List Schedule) :
    ∀ (fuel : Nat) (visited : List String) (n : String),
      (∀ j, (parentIter l n j).isSome) →
      (∃ j, j < fuel ∧ ((∃ m, parentIter l n j = some m ∧ m ∈ visited) ∨
        ∃ i, i < j ∧ parentIter l n i = parentIter l n j)) →
      detectFrom l visited n fuel = some true := by
  intro fuel
  induction fuel with
  | zero => rintro _ _ _ ⟨j, hj, -⟩; omega
  | succ f ih =>
    intro visited n hdef hrev
    have h1 := hdef 1
    rw [parentIter_one] at h1
    by_cases hn : n = ""
    · rw [parentStep, if_pos hn] at h1; simp at h1
    · rw [parentStep, if_neg hn] at h1
      match hl : lookupSchedule l n with
      | none => rw [hl] at h1; simp at h1
      | some s =>
        have hiter1 : parentIter l n 1 = some s.parent := by
          rw [parentIter_one, parentStep, if_neg hn, hl]; rfl
        by_cases hmem : n ∈ visited
        · simp [detectFrom, hn, hmem]
        · have hcon : ¬(visited.contains n = true) := by simpa using hmem
          rw [detectFrom, if_neg hn, if_neg hcon]
          simp only [hl]
          have hshift : ∀ j : Nat,
              parentIter l n (j + 1) = parentIter l s.parent j := by
            intro j
            rw [Nat.add_comm, parentIter_add, hiter1]
            simp
          apply ih
          · intro j
            have := hdef (j + 1)
            rwa [hshift j] at this
          · obtain ⟨j, hj, hcase⟩ := hrev
            match j with
            | 0 =>
              rcases hcase with ⟨m, hm, hmmem⟩ | ⟨i, hi, -⟩
              · simp [parentIter] at hm
                exact absurd (hm ▸ hmmem) hmem
              · omega
            | j' + 1 =>
              refine ⟨j', by omega, ?_⟩
              rcases hcase with ⟨m, hm, hmmem⟩ | ⟨i, hi, heq⟩
              · exact Or.inl ⟨m, by rw [← hshift j']; exact hm,
                  List.mem_cons_of_mem _ hmmem⟩
              · match i with
                | 0 =>
                  refine Or.inl ⟨n, ?_, List.mem_cons_self _ _⟩
                  rw [← hshift j', ← heq]
                  rfl
                | i'' + 1 =>
                  refine Or.inr ⟨i'', by omega, ?_⟩
                  rw [← hshift i'', ← hshift j']
                  exact heq

theorem exists_revisit (l : List Schedule) (n : String) (k : Nat)
    (hk : 1 ≤ k) (hc : parentIter l n k = some n) :
    ∃ j, j < cycleFuel l ∧ ∃ i, i < j ∧
      parentIter l n i = parentIter l n j := by
  have hdef := parentIter_defined l n k hk hc
  set K := (dictKeys l).length with hK
  have hmaps : ∀ j : Fin (K + 1),
      (parentIter l n j).get (hdef j) ∈ (dictKeys l).toFinset := by
    intro j
    set m := (parentIter l n j).get (hdef j) with hm
    have hj : parentIter l n j = some m := (Option.some_get (hdef j)).symm
    have hnext := hdef (j + 1)
    have hstep : parentIter l n (j + 1) = parentIter l m 1 := by
      rw [parentIter_add l n j 1, hj]; rfl
    rw [hstep, parentIter_one] at hnext
    by_cases hme : m = ""
    · rw [parentStep, if_pos hme] at hnext; simp at hnext
    · rw [parentStep, if_neg hme] at hnext
      rw [List.mem_toFinset, mem_dictKeys_iff]
      cases hlm : lookupSchedule l m with
      | none => rw [hlm] at hnext; simp at hnext
      | some s => simp
  have hcard : (dictKeys l).toFinset.card < Finset.univ.card (α := Fin (K + 1)) := by
    have h1 : (dictKeys l).toFinset.card ≤ K := by
      rw [hK]; exact List.toFinset_card_le _
    simp only [Finset.card_univ, Fintype.card_fin]
    omega
  obtain ⟨x, -, y, -, hxy, hfeq⟩ :=
    Finset.exists_ne_map_eq_of_card_lt_of_maps_to hcard (fun a _ => hmaps a)
  have hvals : parentIter l n x = parentIter l n y := by
    rw [(Option.some_get (hdef x)).symm, (Option.some_get (hdef y)).symm, hfeq]
  rcases Nat.lt_or_ge x.val y.val with hlt | hge
  · exact ⟨y.val, by simp only [cycleFuel, ← hK]; exact y.isLt, x.val, hlt, hvals⟩
  · have hlt : y.val < x.val := by
      rcases Nat.lt_or_ge y.val x.val with h | h
      · exact h
      · exact absurd (Fin.ext (Nat.le_antisymm h hge)) hxy
    exact ⟨x.val, by simp only [cycleFuel, ← hK]; exact x.isLt,
      y.val, hlt, hvals.symm⟩

theorem detectFrom_isSome (l : List Schedule) (hpar : validParents l) :
    ∀ (fuel : Nat) (visited : List String) (current : String),
      (current = "" ∨ (lookupSchedule l current).isSome) →
      visited.Nodup → (∀ v ∈ visited, v ∈ dictKeys l) →
      (dictKeys l).length + 1 ≤ fuel + visited.length →
      (detectFrom l visited current fuel).isSome := by
  intro fuel
  induction fuel with
  | zero =>
    intro visited current _ hnd hsub hcount
    exfalso
    have h1 : visited.toFinset.card = visited.length :=
      List.toFinset_card_of_nodup hnd
    have h2 : visited.toFinset ⊆ (dictKeys l).toFinset := by
      intro a ha
      exact List.mem_toFinset.mpr (hsub a (List.mem_toFinset.mp ha))
    have h3 := Finset.card_le_card h2
    have h4 : (dictKeys l).toFinset.card = (dictKeys l).length :=
      List.toFinset_card_of_nodup (dictKeys_nodup l)
    omega
  | succ f ih =>
    intro visited current hor hnd hsub hcount
    by_cases hcur : current = ""
    · simp [detectFrom, hcur]
    · have hlook : (lookupSchedule l current).isSome := hor.resolve_left hcur
      by_cases hmem : current ∈ visited
      · simp [detectFrom, hcur, hmem]
      · have hcon : ¬(visited.contains current = true) := by simpa using hmem
        match hl : lookupSchedule l current with
        | none => rw [hl] at hlook; simp at hlook
        | some s =>
          rw [detectFrom, if_neg hcur, if_neg hcon]
          simp only [hl]
          apply ih
          · exact hpar s (lookupSchedule_mem l current s hl).1
          · exact List.nodup_cons.mpr ⟨hmem, hnd⟩
          · intro v hv
            rcases List.mem_cons.mp hv with rfl | hv
            · exact (mem_dictKeys_iff l v).mpr hlook
            · exact hsub v hv
          · simp only [List.length_cons]; omega

theorem checkCyclesGo_finds (l : List Schedule) :
    ∀ (ks : List String),
      (∀ n ∈ ks, (detectFrom l [] n (cycleFuel l)).isSome) →
      (∃ n ∈ ks, detectFrom l [] n (cycleFuel l) = some true) →
      ∃ m, checkCyclesGo l ks = some (some m) := by
  intro ks
  induction ks with
  | nil => rintro _ ⟨n, hn, -⟩; simp at hn
  | cons n rest ih =>
    intro hall hex
    match hd : detectFrom l [] n (cycleFuel l) with
    | none =>
      have := hall n (List.mem_cons_self n rest)
      rw [hd] at this; simp at this
    | some true => exact ⟨n, by simp [checkCyclesGo, hd]⟩
    | some false =>
      obtain ⟨m, hmem, hm⟩ := hex
      rcases List.mem_cons.mp hmem with rfl | hmem'
      · rw [hd] at hm; simp at hm
      · obtain ⟨m', hm'⟩ := ih
          (fun x hx => hall x (List.mem_cons_of_mem n hx)) ⟨m, hmem', hm⟩
        exact ⟨m', by simp [checkCyclesGo, hd, hm']⟩

theorem exactPred_false (x : GroupSetting) (chat : String)
    (h : ¬(x.name ≠ "" ∧ x.name = chat)) :
    (x.name != "" && x.name == chat) = false := by
  by_cases h1 : x.name = ""
  · simp [h1]
  · by_cases h2 : x.name = chat
    · exact absurd ⟨h1, h2⟩ h
    · simp [h2]

theorem patPred_false (x : GroupSetting) (chat : String)
    (h : ¬(x.name_pattern ≠ "" ∧ reMatch x.name_pattern chat = true)) :
    (x.name_pattern != "" && reMatch x.name_pattern chat) = false := by
  by_cases h1 : x.name_pattern = ""
  · simp [h1]
  · by_cases h2 : reMatch x.name_pattern chat = true
    · exact absurd ⟨h1, h2⟩ h
    · simp [h2]

theorem chainList_step (l : List Schedule) (n : String) (hn : n ≠ "")
    (s : Schedule) (hl : lookupSchedule l n = some s) (fuel : Nat) :
    chainList l n (fuel + 1) = (chainList l s.parent fuel).map (s :: ·) := by
  rw [chainList, if_neg hn, hl]

theorem chainList_nil (l : List Schedule) (fuel : Nat) :
    chainList l "" (fuel + 1) = some [] := by
  simp [chainList]

theorem effectiveName_default (l : List Schedule) :
    effectiveName l "default" = "default" := by
  by_cases h : (lookupSchedule l "default").isSome <;> simp [effectiveName, h]

theorem getEffectiveSchedule_eq (l : List Schedule) (n0 : String)
    (fuel : Nat) (c : List Schedule)
    (h : chainList l (effectiveName l n0) fuel = some c) :
    getEffectiveSchedule l n0 fuel =
      some { name := "_effective_" ++ effectiveName l n0,
             start_of_day := (((c.find? fun s => s.start_of_day.isSome).map
               (·.start_of_day)).getD none).getD 32400,
             timezone :=
               if ((c.find? fun s => s.timezone != "").map
                   (·.timezone)).getD "auto" = "" then "auto"
               else ((c.find? fun s => s.timezone != "").map
                 (·.timezone)).getD "auto",
             weekends := ((c.find? fun s => !s.weekends.isEmpty).map
               (·.weekends)).getD [],
             working_weekends :=
               ((c.find? fun s => !s.working_weekends.isEmpty).map
                 (·.working_weekends)).getD [],
             nonworking_weekdays :=
               ((c.find? fun s => !s.nonworking_weekdays.isEmpty).map
                 (·.nonworking_weekdays)).getD [] } := by
  have h1 : resolveStartOfDay l (effectiveName l n0) fuel =
      some (((c.find? fun s => s.start_of_day.isSome).map
        (·.start_of_day)).getD none) :=
    resolveProp_of_chainList l (·.start_of_day) (·.isSome) none fuel _ c h
  have h2 : resolveTimezone l (effectiveName l n0) fuel =
      some (((c.find? fun s => s.timezone != "").map
        (·.timezone)).getD "auto") :=
    resolveProp_of_chainList l (·.timezone) (· != "") "auto" fuel _ c h
  have h3 : resolveListProp l (·.weekends) (effectiveName l n0) fuel =
      some (((c.find? fun s => !s.weekends.isEmpty).map
        (·.weekends)).getD []) :=
    resolveProp_of_chainList l (·.weekends) (fun v => !v.isEmpty) [] fuel _ c h
  have h4 : resolveListProp l (·.working_weekends) (effectiveName l n0) fuel =
      some (((c.find? fun s => !s.working_weekends.isEmpty).map
        (·.working_weekends)).getD []) :=
    resolveProp_of_chainList l (·.working_weekends) (fun v => !v.isEmpty) []
      fuel _ c h
  have h5 : resolveListProp l (·.nonworking_weekdays)
      (effectiveName l n0) fuel =
      some (((c.find? fun s => !s.nonworking_weekdays.isEmpty).map
        (·.nonworking_weekdays)).getD []) :=
    resolveProp_of_chainList l (·.nonworking_weekdays) (fun v => !v.isEmpty)
      [] fuel _ c h
  rw [getEffectiveSchedule]
  show ((match resolveStartOfDay l (effectiveName l n0) fuel,
      resolveTimezone l (effectiveName l n0) fuel,
      resolveListProp l (·.weekends) (effectiveName l n0) fuel,
      resolveListProp l (·.working_weekends) (effectiveName l n0) fuel,
      resolveListProp l (·.nonworking_weekdays) (effectiveName l n0) fuel with
    | some sod, some tz, some wk, some ww, some nw =>
      some { name := "_effective_" ++ effectiveName l n0,
             start_of_day := sod.getD 32400,
             timezone := if tz = "" then "auto" else tz,
             weekends := wk,
             working_weekends := ww,
             nonworking_weekdays := nw }
    | _, _, _, _, _ => none : Option EffectiveSchedule)) = _
  rw [h1, h2, h3, h4, h5]

/-! Claim theorems. -/

/-- C1: for every effective schedule, a date matched by some
`nonworking_weekdays` selector is never returned by the
next-working-day loop — whatever the start date, the current instant or
the fuel, and in particular even when the same date is also matched by
`working_weekends`. -/
theorem nonworking_never_returned (s : EffectiveSchedule) (r : Int)
    (h : isNonworkingDate s r = true) (d nowDate : Int) (nowTime : Nat)
    (fuel : Nat) :
    nextWorkingFrom s d fuel ≠ some r ∧
      getNextWorkingDay s nowDate nowTime fuel ≠ some r := by
  constructor
  · intro hr
    have := nextWorkingFrom_acceptable s fuel d r hr
    simp [acceptableDay, h] at this
  · intro hr
    have := nextWorkingFrom_acceptable s fuel (startingDay s nowDate nowTime) r hr
    simp [acceptableDay, h] at this

/-- Witness for C1: the schedule with
`working_weekends = nonworking_weekdays = ["2025-09-06"]` has
2025-09-06 flagged nonworking, and the loop never returns 2025-09-06. -/
theorem nonworking_never_returned_witness :
    isNonworkingDate priorityEff (daysFromCivil 2025 9 6) = true ∧
    nextWorkingFrom priorityEff (daysFromCivil 2025 9 1) 30 ≠
      some (daysFromCivil 2025 9 6) ∧
    getNextWorkingDay priorityEff (daysFromCivil 2025 9 6) 28800 30 ≠
      some (daysFromCivil 2025 9 6) := by
  refine ⟨by decide, ?_, ?_⟩
  · exact (nonworking_never_returned priorityEff (daysFromCivil 2025 9 6)
      (by decide) (daysFromCivil 2025 9 1) (daysFromCivil 2025 9 6) 28800 30).1
  · exact (nonworking_never_returned priorityEff (daysFromCivil 2025 9 6)
      (by decide) (daysFromCivil 2025 9 1) (daysFromCivil 2025 9 6) 28800 30).2

/-- C10: when some date at or after the initial candidate `c0` is
acceptable (not nonworking, and not a weekend unless a working
weekend), `get_next_working_day` returns the smallest acceptable date
`≥ c0`: the result is acceptable and every date from `c0` up to it is
unacceptable. -/
theorem getNextWorkingDay_least_acceptable (s : EffectiveSchedule)
    (nowDate : Int) (nowTime : Nat) (fuel : Nat)
    (h : ∃ k : Nat, k < fuel ∧
      acceptableDay s (startingDay s nowDate nowTime + k) = true) :
    ∃ r, getNextWorkingDay s nowDate nowTime fuel = some r ∧
      acceptableDay s r = true ∧ startingDay s nowDate nowTime ≤ r ∧
      ∀ x : Int, startingDay s nowDate nowTime ≤ x → x < r →
        acceptableDay s x = false :=
  nextWorkingFrom_least s fuel (startingDay s nowDate nowTime) h

/-- Witness for C10: a Sat/Sun schedule queried on Wednesday 2025-01-08
at 08:00 (before the 09:00 start of day). -/
theorem getNextWorkingDay_least_acceptable_witness :
    ∃ r, getNextWorkingDay weekendEff (daysFromCivil 2025 1 8) 28800 5 = some r ∧
      acceptableDay weekendEff r = true ∧
      startingDay weekendEff (daysFromCivil 2025 1 8) 28800 ≤ r ∧
      ∀ x : Int, startingDay weekendEff (daysFromCivil 2025 1 8) 28800 ≤ x →
        x < r → acceptableDay weekendEff x = false :=
  getNextWorkingDay_least_acceptable weekendEff (daysFromCivil 2025 1 8)
    28800 5 (by decide)

/-- C9: each list-valued attribute resolves to the value of the first
node of the parent chain whose list is non-empty, and to the empty list
when every node's list is empty — an empty list on a schedule behaves
exactly as an unset attribute. -/
theorem empty_list_inherits (l : List Schedule) (n : String) (fuel : Nat)
    (c : List Schedule) (h : chainList l n fuel = some c) :
    resolveListProp l (·.weekends) n fuel =
      some (((c.find? fun s => !s.weekends.isEmpty).map
        (·.weekends)).getD []) ∧
    resolveListProp l (·.working_weekends) n fuel =
      some (((c.find? fun s => !s.working_weekends.isEmpty).map
        (·.working_weekends)).getD []) ∧
    resolveListProp l (·.nonworking_weekdays) n fuel =
      some (((c.find? fun s => !s.nonworking_weekdays.isEmpty).map
        (·.nonworking_weekdays)).getD []) :=
  ⟨resolveProp_of_chainList l _ _ _ fuel n c h,
   resolveProp_of_chainList l _ _ _ fuel n c h,
   resolveProp_of_chainList l _ _ _ fuel n c h⟩

/-- Witness for C9: a child whose three lists are all empty inherits
the parent's non-empty lists. -/
theorem empty_list_inherits_witness :
    resolveListProp inheritConfig (·.weekends) "child" 3 = some [5, 6] ∧
    resolveListProp inheritConfig (·.working_weekends) "child" 3 =
      some [.single 100] ∧
    resolveListProp inheritConfig (·.nonworking_weekdays) "child" 3 =
      some [.interval 10 20] :=
  empty_list_inherits inheritConfig "child" 3
    [{ name := "child", parent := "default" },
     { name := "default", weekends := [5, 6],
       working_weekends := [.single 100],
       nonworking_weekdays := [.interval 10 20] }] (by decide)

/-- C3: when some binding's non-empty exact `name` equals the chat name,
the matcher returns the effective schedule of the first such binding,
before any pattern binding is even considered — the conclusion holds
whatever patterns the surrounding bindings carry. -/
theorem exact_match_precedes_patterns (l : List Schedule)
    (g1 g2 : List GroupSetting) (g : GroupSetting) (chat : String)
    (fuel : Nat) (hname : g.name = chat) (hne : g.name ≠ "")
    (hfirst : ∀ x ∈ g1, ¬(x.name ≠ "" ∧ x.name = chat)) :
    getScheduleForGroup l (g1 ++ g :: g2) chat fuel =
      getEffectiveSchedule l g.schedule fuel := by
  have hfind : (g1 ++ g :: g2).find?
      (fun x => x.name != "" && x.name == chat) = some g := by
    apply find?_append_of_first
    · have hc : chat ≠ "" := hname ▸ hne
      simp [hname, hc]
    · exact fun x hx => exactPred_false x chat (hfirst x hx)
  rw [getScheduleForGroup, hfind]

/-- Witness for C3: a pattern binding declared first also matches
`"xray"`, yet the later exact binding for `"xray"` wins. -/
theorem exact_match_precedes_patterns_witness :
    reMatch "xr" "xray" = true ∧
    getScheduleForGroup threeZoneConfig
      [{ name_pattern := "xr", schedule := "s1" },
       { name := "xray", schedule := "s2" }] "xray" 3 =
      getEffectiveSchedule threeZoneConfig "s2" 3 :=
  ⟨by decide,
   exact_match_precedes_patterns threeZoneConfig
     [{ name_pattern := "xr", schedule := "s1" }] []
     { name := "xray", schedule := "s2" } "xray" 3 rfl (by decide) (by decide)⟩

/-- Counterexample for C4: the spec's "search" semantics would let the
pattern `"bar"` (which occurs inside `"foobar"`, `reSearch` true) select
schedule `s1`, but the code's `re.match` anchors at the start
(`reMatch` false), so the matcher falls back to the default schedule
instead of returning `s1`'s. -/
theorem pattern_search_semantics_counterexample :
    reSearch "bar" "foobar" = true ∧
    reMatch "bar" "foobar" = false ∧
    getScheduleForGroup threeZoneConfig barPatternBindings "foobar" 3 =
      getEffectiveSchedule threeZoneConfig "default" 3 ∧
    getScheduleForGroup threeZoneConfig barPatternBindings "foobar" 3 ≠
      getEffectiveSchedule threeZoneConfig "s1" 3 := by decide

/-- C4 (amended): with no exact-name match, the matcher returns the
effective schedule of the first binding whose `name_pattern` matches at
the start of the chat name (`re.match` anchors at the beginning; a
full-string match is not required). -/
theorem pattern_match_anchored_first_wins (l : List Schedule)
    (g1 g2 : List GroupSetting) (g : GroupSetting) (chat : String)
    (fuel : Nat)
    (hnoexact : ∀ x ∈ g1 ++ g :: g2, ¬(x.name ≠ "" ∧ x.name = chat))
    (hpat : g.name_pattern ≠ "") (hm : reMatch g.name_pattern chat = true)
    (hfirst : ∀ x ∈ g1,
      ¬(x.name_pattern ≠ "" ∧ reMatch x.name_pattern chat = true)) :
    getScheduleForGroup l (g1 ++ g :: g2) chat fuel =
      getEffectiveSchedule l g.schedule fuel := by
  have hfind1 : (g1 ++ g :: g2).find?
      (fun x => x.name != "" && x.name == chat) = none := by
    rw [List.find?_eq_none]
    intro x hx
    simp [exactPred_false x chat (hnoexact x hx)]
  have hfind2 : (g1 ++ g :: g2).find?
      (fun x => x.name_pattern != "" && reMatch x.name_pattern chat) =
      some g := by
    apply find?_append_of_first
    · simp [hm, hpat]
    · exact fun x hx => patPred_false x chat (hfirst x hx)
  rw [getScheduleForGroup, hfind1, hfind2]

/-- Witness for C4 (amended): the pattern `"foo"` matches at the start
of `"foobar"` without being the whole string, and its binding wins. -/
theorem pattern_match_anchored_first_wins_witness :
    reMatch "foo" "foobar" = true ∧ ("foo" : String) ≠ "foobar" ∧
    getScheduleForGroup threeZoneConfig
      [{ name_pattern := "foo", schedule := "s1" }] "foobar" 3 =
      getEffectiveSchedule threeZoneConfig "s1" 3 :=
  ⟨by decide, by decide,
   pattern_match_anchored_first_wins threeZoneConfig [] []
     { name_pattern := "foo", schedule := "s1" } "foobar" 3
     (by decide) (by decide) (by decide) (by decide)⟩

/-- Counterexample for C5: `noDefaultConfig` both lacks a `"default"`
schedule and contains the dangling parent reference
`"a" → "missing"`, yet validation fails with the missing-default error,
not the unknown-parent error the claim requires. -/
theorem validation_order_counterexample :
    noDefaultConfig.find? (fun s => s.parent != "" &&
      !(lookupSchedule noDefaultConfig s.parent).isSome) =
      some { name := "a", parent := "missing" } ∧
    validateSchedules noDefaultConfig =
      some (Except.error ConfigError.missingDefault) ∧
    validateSchedules noDefaultConfig ≠
      some (Except.error (ConfigError.unknownParent "a" "missing")) := by
  decide

/-- C5 (amended): validation checks the presence of `"default"` first:
whenever no schedule is named `"default"`, construction fails with the
missing-default error, regardless of any dangling parent references
(which are only checked afterwards, followed by the cycle check). -/
theorem missing_default_checked_first (l : List Schedule)
    (h : ∀ s ∈ l, s.name ≠ "default") :
    validateSchedules l = some (Except.error ConfigError.missingDefault) := by
  have hany : l.any (fun s => s.name == "default") = false := by
    rw [Bool.eq_false_iff]
    intro hb
    rw [List.any_eq_true] at hb
    obtain ⟨s, hs, hsb⟩ := hb
    exact h s hs (by simpa using hsb)
  rw [validateSchedules, hany]
  rfl

/-- Witness for C5 (amended): the config with schedule `"a"` (dangling
parent) and no `"default"` fails with the missing-default error. -/
theorem missing_default_checked_first_witness :
    validateSchedules noDefaultConfig =
      some (Except.error ConfigError.missingDefault) :=
  missing_default_checked_first noDefaultConfig (by decide)

/-- C6: an unknown schedule name resolves to the effective schedule of
`"default"` rather than failing, and a chat name matching no binding
(no exact name and no anchored pattern) resolves to the effective
schedule of `"default"` as well. -/
theorem unknown_name_falls_back_to_default (l : List Schedule) (n : String)
    (gs : List GroupSetting) (chat : String) (fuel : Nat)
    (hn : lookupSchedule l n = none)
    (hexact : ∀ g ∈ gs, ¬(g.name ≠ "" ∧ g.name = chat))
    (hpat : ∀ g ∈ gs, ¬(g.name_pattern ≠ "" ∧
      reMatch g.name_pattern chat = true)) :
    getEffectiveSchedule l n fuel = getEffectiveSchedule l "default" fuel ∧
    getScheduleForGroup l gs chat fuel =
      getEffectiveSchedule l "default" fuel := by
  constructor
  · have h1 : effectiveName l n = "default" := by simp [effectiveName, hn]
    rw [getEffectiveSchedule, getEffectiveSchedule, h1, effectiveName_default]
  · have hf1 : gs.find? (fun g => g.name != "" && g.name == chat) = none := by
      rw [List.find?_eq_none]
      intro x hx
      simp [exactPred_false x chat (hexact x hx)]
    have hf2 : gs.find?
        (fun g => g.name_pattern != "" && reMatch g.name_pattern chat) =
        none := by
      rw [List.find?_eq_none]
      intro x hx
      simp [patPred_false x chat (hpat x hx)]
    rw [getScheduleForGroup, hf1, hf2]

/-- Witness for C6: the undeclared name `"nope"` and the unmatched chat
name `"zzz"` both resolve to the default effective schedule. -/
theorem unknown_name_falls_back_to_default_witness :
    getEffectiveSchedule threeZoneConfig "nope" 3 =
      getEffectiveSchedule threeZoneConfig "default" 3 ∧
    getScheduleForGroup threeZoneConfig
      [{ name_pattern := "xr", schedule := "s1" },
       { name := "xray", schedule := "s2" }] "zzz" 3 =
      getEffectiveSchedule threeZoneConfig "default" 3 :=
  unknown_name_falls_back_to_default threeZoneConfig "nope"
    [{ name_pattern := "xr", schedule := "s1" },
     { name := "xray", schedule := "s2" }] "zzz" 3
    (by decide) (by decide) (by decide)

/-- C2: the attribute resolutions are independent walks of the parent
chain: for a chain `C → B → A` where `A` sets only `timezone` and `B`
sets only `start_of_day` (and `C` sets neither), resolving `C` yields
`A`'s timezone and `B`'s start of day simultaneously. -/
theorem resolve_attributes_independent (l : List Schedule)
    (nc nb na : String) (C B A : Schedule) (t : Nat) (fuel : Nat)
    (hnc : nc ≠ "") (hnb : nb ≠ "") (hna : na ≠ "")
    (hC : lookupSchedule l nc = some C) (hCp : C.parent = nb)
    (hB : lookupSchedule l nb = some B) (hBp : B.parent = na)
    (hA : lookupSchedule l na = some A) (hAp : A.parent = "")
    (hAtz : A.timezone ≠ "") (hBtz : B.timezone = "") (hCtz : C.timezone = "")
    (hBsod : B.start_of_day = some t) (hCsod : C.start_of_day = none)
    (hfuel : 4 ≤ fuel) :
    ∃ e, getEffectiveSchedule l nc fuel = some e ∧
      e.timezone = A.timezone ∧ e.start_of_day = t := by
  obtain ⟨k, rfl⟩ := Nat.exists_eq_add_of_le hfuel
  have hf : 4 + k = (k + 3) + 1 := by omega
  rw [hf]
  have hname : effectiveName l nc = nc := by simp [effectiveName, hC]
  have e2 : k + 3 = (k + 2) + 1 := rfl
  have e3 : k + 2 = (k + 1) + 1 := rfl
  have hchain : chainList l (effectiveName l nc) ((k + 3) + 1) =
      some [C, B, A] := by
    rw [hname, chainList_step l nc hnc C hC, hCp, e2,
      chainList_step l nb hnb B hB, hBp, e3,
      chainList_step l na hna A hA, hAp, chainList_nil]
    rfl
  rw [getEffectiveSchedule_eq l nc ((k + 3) + 1) [C, B, A] hchain]
  have hta : (A.timezone != "") = true := by simp [hAtz]
  have ftz : [C, B, A].find? (fun s => s.timezone != "") = some A := by
    simp [List.find?, hCtz, hBtz, hta]
  have fsod : [C, B, A].find? (fun s => s.start_of_day.isSome) = some B := by
    simp [List.find?, hCsod, hBsod]
  refine ⟨_, rfl, ?_, ?_⟩
  · rw [ftz]
    simp [hAtz]
  · rw [fsod]
    simp [hBsod]

/-- Witness for C2: in `chainConfig`, resolving `"C"` yields `"A"`'s
timezone `"Zulu"` together with `"B"`'s start of day 01:00:00. -/
theorem resolve_attributes_independent_witness :
    ∃ e, getEffectiveSchedule chainConfig "C" 4 = some e ∧
      e.timezone = "Zulu" ∧ e.start_of_day = 3600 :=
  resolve_attributes_independent chainConfig "C" "B" "A"
    { name := "C", parent := "B" }
    { name := "B", parent := "A", start_of_day := some 3600 }
    { name := "A", timezone := "Zulu" } 3600 4
    (by decide) (by decide) (by decide) (by decide) rfl (by decide) rfl
    (by decide) rfl (by decide) rfl rfl rfl rfl (by decide)

/-- C8: a schedule whose entire (fallback-resolved) parent chain never
sets any attribute resolves to the documented defaults: start of day
09:00:00, timezone `"auto"`, and empty lists. -/
theorem unset_chain_resolves_to_defaults (l : List Schedule)
    (name0 : String) (fuel : Nat) (c : List Schedule)
    (h1 : chainList l (effectiveName l name0) fuel = some c)
    (h2 : ∀ s ∈ c, s.start_of_day = none ∧ s.timezone = "" ∧
      s.weekends = ([] : List Int) ∧
      s.working_weekends = ([] : List DateSelector) ∧
      s.nonworking_weekdays = ([] : List DateSelector)) :
    getEffectiveSchedule l name0 fuel =
      some { name := "_effective_" ++ effectiveName l name0,
             start_of_day := 32400, timezone := "auto", weekends := [],
             working_weekends := [], nonworking_weekdays := [] } := by
  rw [getEffectiveSchedule_eq l name0 fuel c h1]
  have f1 : c.find? (fun s => s.start_of_day.isSome) = none :=
    List.find?_eq_none.mpr (fun x hx => by simp [(h2 x hx).1])
  have f2 : c.find? (fun s => s.timezone != "") = none :=
    List.find?_eq_none.mpr (fun x hx => by simp [(h2 x hx).2.1])
  have f3 : c.find? (fun s => !s.weekends.isEmpty) = none :=
    List.find?_eq_none.mpr (fun x hx => by simp [(h2 x hx).2.2.1])
  have f4 : c.find? (fun s => !s.working_weekends.isEmpty) = none :=
    List.find?_eq_none.mpr (fun x hx => by simp [(h2 x hx).2.2.2.1])
  have f5 : c.find? (fun s => !s.nonworking_weekdays.isEmpty) = none :=
    List.find?_eq_none.mpr (fun x hx => by simp [(h2 x hx).2.2.2.2])
  rw [f1, f2, f3, f4, f5]
  simp

/-- Witness for C8: the two-node chain of `plainConfig` sets nothing
and resolves to the defaults. -/
theorem unset_chain_resolves_to_defaults_witness :
    getEffectiveSchedule plainConfig "leaf" 3 =
      some { name := "_effective_leaf", start_of_day := 32400,
             timezone := "auto", weekends := [], working_weekends := [],
             nonworking_weekdays := [] } :=
  unset_chain_resolves_to_defaults plainConfig "leaf" 3
    [{ name := "leaf", parent := "default" }, { name := "default" }]
    (by decide) (by decide)

theorem cycleConfig_iterA : ∀ k : Nat,
    parentIter cycleConfig "a" (k + 1) = some "b" ∨
    parentIter cycleConfig "a" (k + 1) = some "c" := by
  intro k
  induction k with
  | zero => left; decide
  | succ k ih =>
    have hstep : parentIter cycleConfig "a" (k + 1 + 1) =
        (parentIter cycleConfig "a" (k + 1)).bind (parentStep cycleConfig) :=
      rfl
    rcases ih with h | h
    · right; rw [hstep, h]; decide
    · left; rw [hstep, h]; decide

/-- Counterexample for C7: in `cycleConfig` the cycle is `b → c → b`,
and the error raised names `"a"` — the schedule where detection
started, which hangs off the cycle but does not lie on it. -/
theorem cycle_error_names_detection_start :
    validateSchedules cycleConfig =
      some (Except.error (ConfigError.circular "a")) ∧
    ¬ inParentCycle cycleConfig "a" ∧
    inParentCycle cycleConfig "b" := by
  refine ⟨by decide, ?_, ⟨2, by decide, by decide⟩⟩
  rintro ⟨k, hk, hc⟩
  obtain ⟨k', rfl⟩ : ∃ k', k = k' + 1 := ⟨k - 1, by omega⟩
  rcases cycleConfig_iterA k' with h | h <;> rw [hc] at h <;>
    exact absurd h (by decide)

/-- C7 (amended): for every schedule set whose parent graph contains a
cycle of any length ≥ 1 and which passes the earlier default and parent
checks, construction fails with a circular-dependency error naming the
schedule where detection started (a schedule that reaches the cycle,
though not necessarily one lying on it). -/
theorem validate_fails_on_cycle (l : List Schedule)
    (hdef : ∃ s ∈ l, s.name = "default")
    (hpar : validParents l)
    (hcyc : ∃ n, inParentCycle l n) :
    ∃ m, validateSchedules l =
      some (Except.error (ConfigError.circular m)) := by
  obtain ⟨n, k, hk, hc⟩ := hcyc
  have hany : l.any (fun s => s.name == "default") = true := by
    rw [List.any_eq_true]
    obtain ⟨s, hs, hname⟩ := hdef
    exact ⟨s, hs, by simp [hname]⟩
  have hfind : l.find? (fun s => s.parent != "" &&
      !(lookupSchedule l s.parent).isSome) = none := by
    rw [List.find?_eq_none]
    intro s hs
    rcases hpar s hs with h | h
    · simp [h]
    · simp [h]
  have hdefined := parentIter_defined l n k hk hc
  have htrue : detectFrom l [] n (cycleFuel l) = some true := by
    apply detectFrom_true l (cycleFuel l) [] n hdefined
    obtain ⟨j, hj, i, hi, heq⟩ := exists_revisit l n k hk hc
    exact ⟨j, hj, Or.inr ⟨i, hi, heq⟩⟩
  have hnmem : n ∈ dictKeys l := by
    have h1 := hdefined 1
    rw [parentIter_one] at h1
    rw [mem_dictKeys_iff]
    by_cases hne : n = ""
    · rw [parentStep, if_pos hne] at h1; simp at h1
    · rw [parentStep, if_neg hne] at h1
      cases hl : lookupSchedule l n with
      | none => rw [hl] at h1; simp at h1
      | some s => simp
  have hall : ∀ m ∈ dictKeys l,
      (detectFrom l [] m (cycleFuel l)).isSome := by
    intro m hm
    apply detectFrom_isSome l hpar (cycleFuel l) [] m
    · exact Or.inr ((mem_dictKeys_iff l m).mp hm)
    · exact List.nodup_nil
    · intro v hv; simp at hv
    · simp [cycleFuel]
  obtain ⟨m, hm⟩ :=
    checkCyclesGo_finds l (dictKeys l) hall ⟨n, hnmem, htrue⟩
  refine ⟨m, ?_⟩
  rw [validateSchedules, hany, hfind]
  simp [checkCycles, hm]

/-- Witness for C7 (amended): `cycleConfig` has `"default"`, valid
parents and the cycle `b → c → b`, and validation fails with a
circular-dependency error. -/
theorem validate_fails_on_cycle_witness :
    ∃ m, validateSchedules cycleConfig =
      some (Except.error (ConfigError.circular m)) :=
  validate_fails_on_cycle cycleConfig
    ⟨{ name := "default" }, by decide, rfl⟩ (by decide)
    ⟨"b", 2, by decide, by decide⟩

end TelegramMuter
